import Mathlib

/- Shallow embedding of the .msg extraction core of email2pdf
   (src/email_processor.py, class EmailProcessor).  Byte buffers are
   `List Nat` with every element < 256 where that matters; strings are
   Lean `String`s built from their character lists so that Python's
   per-code-point operations (slicing, replace, lower, endswith) are
   modelled directly on `String.data`. -/

/- ---------- Property decoder: UTF-16-LE text ---------- -/

/- Pair up bytes into little-endian 16-bit code units, as Python's
   utf-16-le codec does; a trailing lone byte is an incomplete unit and
   is dropped by errors=ignore. -/
def utf16CodeUnits : List Nat → List Nat
  | b0 :: b1 :: rest => (b0 + 256 * b1) :: utf16CodeUnits rest
  | _ => []

def isHighSurrogate (u : Nat) : Bool := decide (0xD800 ≤ u ∧ u ≤ 0xDBFF)

def isLowSurrogate (u : Nat) : Bool := decide (0xDC00 ≤ u ∧ u ≤ 0xDFFF)

/- Combine code units into characters the way CPython's utf-16-le
   decoder with errors=ignore does: a high surrogate followed by a low
   surrogate forms one supplementary character, an unpaired surrogate is
   silently dropped (the error span is that single unit), and every
   other unit is a character of its own value. -/
def unitsToChars : List Nat → List Char
  | [] => []
  | [u] =>
    if isHighSurrogate u || isLowSurrogate u then [] else [Char.ofNat u]
  | u :: v :: rest =>
    if isHighSurrogate u then
      if isLowSurrogate v then
        Char.ofNat (0x10000 + (u - 0xD800) * 0x400 + (v - 0xDC00)) :: unitsToChars rest
      else unitsToChars (v :: rest)
    else if isLowSurrogate u then unitsToChars (v :: rest)
    else Char.ofNat u :: unitsToChars (v :: rest)

/- Python str.rstrip(NUL): remove every trailing NUL character. -/
def rstripNulChars (l : List Char) : List Char :=
  (l.reverse.dropWhile (fun c => c == '\x00')).reverse

/- data.decode(utf-16-le, errors=ignore).rstrip(NUL), the text decoding
   used for every string-valued property stream
   (src/email_processor.py lines 64-67, 87, 107, 109). -/
def decodeUtf16 (data : List Nat) : String :=
  String.mk (rstripNulChars (unitsToChars (utf16CodeUnits data)))

/- ---------- Property decoder: FILETIME ---------- -/

/- int.from_bytes(data, little): the little-endian value of the whole
   buffer, whatever its length (the empty buffer gives 0). -/
def leBytesToNat : List Nat → Nat
  | [] => 0
  | b :: rest => b + 256 * leBytesToNat rest

/- The Python source computes timedelta(microseconds=filetime / 10).
   True division makes a float and timedelta rounds fractional
   microseconds to the nearest whole microsecond, ties to even.  We
   model this as exact rational division of the tick count by 10
   followed by round-half-to-even; this agrees with the float path
   whenever filetime / 10 is within the exactly-representable range of
   a double (ticks up to 10 * 2^51), which covers every theorem below
   that depends on the rounded value. -/
def pyRoundHalfEvenDiv10 (t : Nat) : Nat :=
  let q := t / 10
  let r := t % 10
  if r < 5 then q
  else if 5 < r then q + 1
  else if q % 2 = 0 then q else q + 1

/- Largest microsecond offset from 1601-01-01 that fits a Python
   datetime: 3067670 days (proleptic-Gregorian days from 1601-01-01 to
   9999-12-31) times 86400000000, plus 86399999999 for the last day,
   equals 265046774399999999.  Adding one more microsecond makes
   `datetime(1601, 1, 1) + timedelta(...)` raise OverflowError. -/
def maxDatetimeMicros : Nat := 265046774399999999

inductive FiletimeResult where
  /- datetime(1601, 1, 1) + timedelta(microseconds=m) -/
  | timestamp (m : Nat)
  /- the string literal returned on conversion failure -/
  | unknown
deriving DecidableEq

/- The body of the try block in _parse_filetime
   (src/email_processor.py lines 33-35): decode the whole buffer as a
   little-endian integer and add it, as tenths of microseconds, to the
   1601-01-01 epoch.  The only failure mode is OverflowError when the
   result leaves the datetime range (huge buffers also overflow the
   int-to-float conversion; both paths raise inside the try block, so
   one error case models them). -/
def parse_filetime_body (data : List Nat) : Except String Nat :=
  let micros := pyRoundHalfEvenDiv10 (leBytesToNat data)
  if micros ≤ maxDatetimeMicros then Except.ok micros
  else Except.error "OverflowError"

/- _parse_filetime (src/email_processor.py lines 30-38): the except
   branch catches every exception, logs, and returns the string
   literal Unknown. -/
def parse_filetime (data : List Nat) : FiletimeResult :=
  match parse_filetime_body data with
  | Except.ok micros => FiletimeResult.timestamp micros
  | Except.error _ => FiletimeResult.unknown

/- Spec-side definition for the refinement claim about _parse_filetime:
   the specification says the decoded instant is the 1601-01-01 epoch
   plus t * 100 nanoseconds, i.e. a nanosecond offset of t * 100. -/
def spec_filetime_offset_ns (t : Nat) : Nat := t * 100

/- The nanosecond offset the code actually produces (microseconds
   times 1000), or none when the code returns Unknown. -/
def code_filetime_offset_ns (data : List Nat) : Option Nat :=
  match parse_filetime data with
  | FiletimeResult.timestamp m => some (m * 1000)
  | FiletimeResult.unknown => none

/- ---------- String helpers mirroring the Python operations ---------- -/

/- entry_name[-8:], Python slicing by code points (shorter strings are
   returned whole). -/
def strTakeRight (s : String) (n : Nat) : String :=
  String.mk (s.data.drop (s.data.length - n))

/- str.lower, applied per character (the file names involved are
   ASCII, where Char.toLower agrees with Python). -/
def strToLower (s : String) : String := String.mk (s.data.map Char.toLower)

/- str.endswith. -/
def strEndsWith (s suffix : String) : Bool := suffix.data.isSuffixOf s.data

/- str.startswith. -/
def strStartsWith (s p : String) : Bool := p.data.isPrefixOf s.data

/- ---------- Attachment materializer (_save_attachment) ---------- -/

/- The characters the sanitizing loop in _save_attachment replaces
   (src/email_processor.py line 172). -/
def forbiddenFilenameChars : List Char :=
  ['<', '>', ':', '"', '/', '\\', '|', '?', '*']

def sanitizeChar (c : Char) : Char :=
  if c ∈ forbiddenFilenameChars then '.' else c

/- The loop `for char in ...: base = base.replace(char, '.')`
   (src/email_processor.py lines 172-173).  Each pass replaces every
   occurrence of one single character by a period and the replacement
   character is never itself replaced later, so the sequence of
   replaces equals this single pointwise map over the characters. -/
def sanitizeFilename (s : String) : String := String.mk (s.data.map sanitizeChar)

/- mime_to_ext.get(mime_type, bin-extension)
   (src/email_processor.py lines 167-170, 174); a missing declared
   type (None) is not a key of the dict and also falls to the
   default. -/
def mime_to_ext (m : Option String) : String :=
  match m with
  | none => ".bin"
  | some v =>
    if v = "application/pdf" then ".pdf"
    else if v = "text/plain" then ".txt"
    else if v = "image/jpeg" then ".jpg"
    else if v = "image/png" then ".png"
    else if v = "application/msword" then ".doc"
    else ".bin"

/- The keys of the mime_to_ext dict, used to state what an unknown
   declared type is. -/
def knownMimeTypes : List String :=
  ["application/pdf", "text/plain", "image/jpeg", "image/png", "application/msword"]

/- The filename computation of _save_attachment
   (src/email_processor.py lines 171-175).  Python's
   `attachment[filename-key] or synthesized` takes the synthesized name
   both when the declared filename is None and when it is the empty
   string (both falsy).  The period test runs after sanitization, on
   the reassigned base_filename. -/
def save_attachment_name (filename : Option String) (mime_type : Option String)
    (entry_name : String) : String :=
  let base0 :=
    match filename with
    | some f => if f = "" then "attachment_" ++ strTakeRight entry_name 8 else f
    | none => "attachment_" ++ strTakeRight entry_name 8
  let base := sanitizeFilename base0
  let ext := if '.' ∈ base.data then "" else mime_to_ext mime_type
  base ++ ext

/- ---------- Container entries and the traversal state ---------- -/

/- A node of the compound-file tree as exposed by CompoundFileReader:
   a stream with byte content or a storage directory with ordered
   children.  doc.open on a stream yields its bytes; the reader is the
   assumed-correct external capability, so reads succeed in the
   model. -/
inductive Entry where
  | stream (name : String) (data : List Nat)
  | dir (name : String) (children : List Entry)

def Entry.name : Entry → String
  | Entry.stream n _ => n
  | Entry.dir n _ => n

/- The six scalar-metadata stream identifiers of _extract_metadata
   (src/email_processor.py lines 63-70). -/
def fromId : String := "__substg1.0_0C1A001F"

def subjectId : String := "__substg1.0_0037001F"

def bodyId : String := "__substg1.0_1000001F"

def ccId : String := "__substg1.0_0E03001F"

def sentOnId1 : String := "__substg1.0_00390040"

def sentOnId2 : String := "__substg1.0_0E060040"

/- The recipient and attachment identifiers
   (src/email_processor.py lines 79, 81, 94, 104, 106, 108). -/
def recipDirPrefixStr : String := "__recip_version1.0_"

def recipAddrId : String := "__substg1.0_3003001F"

def attachDirPrefixStr : String := "__attach_version1.0_"

def attachDataId : String := "__substg1.0_37010102"

def attachFilenameId1 : String := "__substg1.0_370E001F"

def attachFilenameId2 : String := "__substg1.0_3707001F"

def attachMimeId : String := "__substg1.0_3704001F"

/- self.email_data, the dict initialized in __init__
   (src/email_processor.py line 18).  The Sent On slot holds either a
   decoded timestamp or the Unknown marker once written. -/
structure EmailData where
  From : Option String
  To : List String
  SentOn : Option FiletimeResult
  CC : Option String
  Subject : Option String
  Body : Option String

def initEmailData : EmailData :=
  { From := none, To := [], SentOn := none, CC := none, Subject := none, Body := none }

/- The whole mutable state of one EmailProcessor session: the record
   dict, self.attachments, and the files written to the output
   directory (filename and bytes, in write order). -/
structure ProcState where
  email_data : EmailData
  attachments : List String
  files : List (String × List Nat)

def initState : ProcState :=
  { email_data := initEmailData, attachments := [], files := [] }

/- _extract_metadata (src/email_processor.py lines 54-75): only
   non-directory entries are examined; the name is looked up in the
   mappings dict, and the Sent On slot is written only while it is
   still falsy (None; once written it holds a datetime or the Unknown
   string, both truthy). -/
def extract_metadata (s : ProcState) (e : Entry) : ProcState :=
  match e with
  | Entry.dir _ _ => s
  | Entry.stream name data =>
    if name = fromId then { s with email_data.From := some (decodeUtf16 data) }
    else if name = subjectId then { s with email_data.Subject := some (decodeUtf16 data) }
    else if name = bodyId then { s with email_data.Body := some (decodeUtf16 data) }
    else if name = ccId then { s with email_data.CC := some (decodeUtf16 data) }
    else if name = sentOnId1 ∨ name = sentOnId2 then
      if s.email_data.SentOn.isNone then
        { s with email_data.SentOn := some (parse_filetime data) }
      else s
    else s

/- The body of the loop in _extract_recipients
   (src/email_processor.py lines 80-90).  The source compares the
   child's name before checking whether it is a directory; opening a
   directory child raises, the exception is caught and logged, and
   nothing is appended, so a directory child leaves the state
   unchanged. -/
def recip_step (acc : ProcState) (c : Entry) : ProcState :=
  match c with
  | Entry.dir _ _ => acc
  | Entry.stream n d =>
    if n = recipAddrId then
      { acc with email_data.To := acc.email_data.To ++ [decodeUtf16 d] }
    else acc

/- _extract_recipients (src/email_processor.py lines 77-90). -/
def extract_recipients (s : ProcState) (e : Entry) : ProcState :=
  match e with
  | Entry.stream _ _ => s
  | Entry.dir name children =>
    if strStartsWith name recipDirPrefixStr then children.foldl recip_step s
    else s

/- The attachment dict built by the scan loop of _extract_attachment
   (src/email_processor.py line 95). -/
structure AttachmentData where
  data : Option (List Nat)
  filename : Option String
  mime_type : Option String

def initAttachment : AttachmentData :=
  { data := none, filename := none, mime_type := none }

/- One iteration of the scan loop of _extract_attachment
   (src/email_processor.py lines 96-111): directory children are
   skipped, and each of the three recognized identifiers assigns its
   slot unconditionally. -/
def attach_scan_step (a : AttachmentData) (c : Entry) : AttachmentData :=
  match c with
  | Entry.dir _ _ => a
  | Entry.stream n d =>
    if n = attachDataId then { a with data := some d }
    else if n = attachFilenameId1 ∨ n = attachFilenameId2 then
      { a with filename := some (decodeUtf16 d) }
    else if n = attachMimeId then { a with mime_type := some (decodeUtf16 d) }
    else a

/- _extract_attachment (src/email_processor.py lines 92-117): after the
   scan, `if attachment[data-key]:` is Python truthiness, so both a
   missing payload and an empty payload skip the save; otherwise
   _save_attachment writes the bytes under the computed name and the
   name is appended to self.attachments. -/
def extract_attachment (s : ProcState) (e : Entry) : ProcState :=
  match e with
  | Entry.stream _ _ => s
  | Entry.dir name children =>
    if strStartsWith name attachDirPrefixStr then
      let a := children.foldl attach_scan_step initAttachment
      match a.data with
      | none => s
      | some d =>
        if d = [] then s
        else
          let fn := save_attachment_name a.filename a.mime_type name
          { s with attachments := s.attachments ++ [fn], files := s.files ++ [(fn, d)] }
    else s

/- The per-entry body of the loop in _process_msg
   (src/email_processor.py lines 44-50): the three extractors run in
   order on every root entry.  Their name guards are mutually
   exclusive, and in the model no extractor raises, so the per-entry
   try/except never fires. -/
def process_entry (s : ProcState) (e : Entry) : ProcState :=
  extract_attachment (extract_recipients (extract_metadata s e) e) e

def process_msg_entries (s : ProcState) (es : List Entry) : ProcState :=
  es.foldl process_entry s

/- One input file: its path and the outcome of
   CompoundFileReader(file_path) — the root's ordered children on
   success, or the raised error. -/
structure MsgInput where
  file_path : String
  container : Except String (List Entry)

/- _process_msg (src/email_processor.py lines 40-52): an open failure
   is caught by the outer except, leaving the freshly initialized
   state. -/
def process_msg (inp : MsgInput) : ProcState :=
  match inp.container with
  | Except.ok entries => process_msg_entries initState entries
  | Except.error _ => initState

/- process (src/email_processor.py lines 22-28): dispatch on the
   lowercased extension; any other extension runs no extractor at all.
   The .eml branch (_process_eml) parses MIME mail with the standard
   library and is outside this core (spec section 1); it enters the
   model as an uninterpreted transformation passed in as `emlSem`. -/
def process (emlSem : MsgInput → ProcState) (inp : MsgInput) : ProcState :=
  if strEndsWith (strToLower inp.file_path) ".msg" then process_msg inp
  else if strEndsWith (strToLower inp.file_path) ".eml" then emlSem inp
  else initState

/- ---------- Classification predicates used by the theorems ---------- -/

def isSentOnStream : Entry → Bool
  | Entry.stream n _ => decide (n = sentOnId1 ∨ n = sentOnId2)
  | Entry.dir _ _ => false

/- The four text-valued scalar fields of the record; the two Sent On
   identifiers are handled separately because of their write-once
   guard. -/
inductive TextField where
  | From
  | Subject
  | Body
  | CC

def TextField.streamName : TextField → String
  | TextField.From => fromId
  | TextField.Subject => subjectId
  | TextField.Body => bodyId
  | TextField.CC => ccId

def TextField.get : TextField → EmailData → Option String
  | TextField.From, r => r.From
  | TextField.Subject, r => r.Subject
  | TextField.Body, r => r.Body
  | TextField.CC, r => r.CC

def isFieldStream (tf : TextField) : Entry → Bool
  | Entry.stream n _ => decide (n = tf.streamName)
  | Entry.dir _ _ => false

def isAttachFilenameStream : Entry → Bool
  | Entry.stream n _ => decide (n = attachFilenameId1 ∨ n = attachFilenameId2)
  | Entry.dir _ _ => false

/- ---------- Arithmetic lemmas about the FILETIME decoder ---------- -/

lemma leBytesToNat_lt_pow (data : List Nat) (h : ∀ b ∈ data, b < 256) :
    leBytesToNat data < 256 ^ data.length := by
  induction data with
  | nil => simp [leBytesToNat]
  | cons b rest ih =>
    have hb : b < 256 := h b (by simp)
    have hr : leBytesToNat rest < 256 ^ rest.length :=
      ih (fun x hx => h x (by simp [hx]))
    simp only [leBytesToNat, List.length_cons, pow_succ]
    set v := leBytesToNat rest
    set p := (256 : Nat) ^ rest.length
    omega

lemma pyRoundHalfEvenDiv10_le (t : Nat) : pyRoundHalfEvenDiv10 t ≤ t / 10 + 1 := by
  simp only [pyRoundHalfEvenDiv10]
  split_ifs <;> omega

lemma leBytesToNat_append_zeros (data : List Nat) (k : Nat) :
    leBytesToNat (data ++ List.replicate k 0) = leBytesToNat data := by
  induction data with
  | nil =>
    simp only [List.nil_append, leBytesToNat]
    induction k with
    | zero => rfl
    | succ k ihk => simpa [List.replicate_succ, leBytesToNat] using ihk
  | cons b rest ih => simp [leBytesToNat, ih]

lemma parse_filetime_small (data : List Nat)
    (h : leBytesToNat data ≤ maxDatetimeMicros) :
    parse_filetime_body data = Except.ok (pyRoundHalfEvenDiv10 (leBytesToNat data)) ∧
    parse_filetime data = FiletimeResult.timestamp (pyRoundHalfEvenDiv10 (leBytesToNat data)) := by
  have hle : pyRoundHalfEvenDiv10 (leBytesToNat data) ≤ maxDatetimeMicros := by
    have h1 := pyRoundHalfEvenDiv10_le (leBytesToNat data)
    have h2 : leBytesToNat data / 10 ≤ leBytesToNat data := Nat.div_le_self _ _
    unfold maxDatetimeMicros at h ⊢
    omega
  constructor
  · simp [parse_filetime_body, hle]
  · simp [parse_filetime, parse_filetime_body, hle]

/-- Claim C3 counterexample: the claim says every undersized buffer
(including the empty one) makes `_parse_filetime` return the Unknown
marker, but on the empty buffer `int.from_bytes` succeeds with value 0
and the function returns the 1601-01-01 epoch, not Unknown. -/
theorem c3_undersized_counterexample :
    parse_filetime [] = FiletimeResult.timestamp 0 ∧
    FiletimeResult.timestamp 0 ≠ FiletimeResult.unknown := by
  decide

/-- Claim C3 (amended): `_parse_filetime` never lets an exception reach
its caller, but an undersized buffer (fewer than 8 bytes, including the
empty buffer) is NOT reported as Unknown: `int.from_bytes` accepts any
length, so the buffer decodes as a little-endian tick count like any
other, the try-block succeeds (no overflow is possible below 2^56
ticks), and a timestamp is returned.  Unknown is produced only when the
conversion itself fails (tick counts past the datetime range). -/
theorem c3_undersized_decodes_not_unknown (data : List Nat)
    (hlen : data.length < 8) (hbytes : ∀ b ∈ data, b < 256) :
    parse_filetime_body data = Except.ok (pyRoundHalfEvenDiv10 (leBytesToNat data)) ∧
    parse_filetime data = FiletimeResult.timestamp (pyRoundHalfEvenDiv10 (leBytesToNat data)) ∧
    parse_filetime data ≠ FiletimeResult.unknown := by
  have h1 : leBytesToNat data < 256 ^ data.length := leBytesToNat_lt_pow data hbytes
  have h2 : (256 : Nat) ^ data.length ≤ 256 ^ 7 :=
    Nat.pow_le_pow_right (by norm_num) (by omega)
  have h3 : (256 : Nat) ^ 7 = 72057594037927936 := by norm_num
  have h4 : leBytesToNat data ≤ maxDatetimeMicros := by
    unfold maxDatetimeMicros
    omega
  obtain ⟨hb, hp⟩ := parse_filetime_small data h4
  refine ⟨hb, hp, ?_⟩
  rw [hp]
  intro hcontra
  exact FiletimeResult.noConfusion hcontra

theorem c3_witness :
    [1, 2].length < 8 ∧ parse_filetime [1, 2] ≠ FiletimeResult.unknown :=
  ⟨by decide, (c3_undersized_decodes_not_unknown [1, 2] (by decide) (by decide)).2.2⟩

/-- Claim C4 counterexample: the claim says every 8-byte tick count t
decodes to the epoch plus exactly t * 100 nanoseconds, but Python's
datetime has microsecond resolution: `timedelta(microseconds=5 / 10)`
rounds 0.5 to 0 (round half to even), so tick count 5 decodes to the
epoch itself (offset 0 ns) while the claim demands offset 500 ns. -/
theorem c4_exact_ticks_counterexample :
    code_filetime_offset_ns [5, 0, 0, 0, 0, 0, 0, 0] = some 0 ∧
    spec_filetime_offset_ns (leBytesToNat [5, 0, 0, 0, 0, 0, 0, 0]) = 500 ∧
    code_filetime_offset_ns [5, 0, 0, 0, 0, 0, 0, 0] ≠
      some (spec_filetime_offset_ns (leBytesToNat [5, 0, 0, 0, 0, 0, 0, 0])) := by
  decide

/-- Claim C4 (amended): for every 8-byte little-endian tick count that
is a multiple of 10 (so that t * 100 ns is a whole number of
microseconds) and at most 10 * 2^51 (so that t / 10 passes through the
float division and timedelta rounding exactly), `_parse_filetime`
returns exactly the 1601-01-01 epoch plus t * 100 nanoseconds; in
particular tick count 0 decodes to exactly 1601-01-01T00:00:00 (the
witness instantiates this at the zero buffer). -/
theorem c4_multiple_of_ten_ticks_exact (data : List Nat)
    (hlen : data.length = 8) (hbytes : ∀ b ∈ data, b < 256)
    (hdiv : leBytesToNat data % 10 = 0)
    (hsmall : leBytesToNat data ≤ 10 * 2 ^ 51) :
    code_filetime_offset_ns data = some (spec_filetime_offset_ns (leBytesToNat data)) := by
  have hb : (10 : Nat) * 2 ^ 51 = 22517998136852480 := by norm_num
  have h4 : leBytesToNat data ≤ maxDatetimeMicros := by
    unfold maxDatetimeMicros
    omega
  obtain ⟨-, hp⟩ := parse_filetime_small data h4
  have hr : pyRoundHalfEvenDiv10 (leBytesToNat data) = leBytesToNat data / 10 := by
    unfold pyRoundHalfEvenDiv10
    simp [hdiv]
  rw [code_filetime_offset_ns, hp, hr]
  show some (leBytesToNat data / 10 * 1000) = some (spec_filetime_offset_ns (leBytesToNat data))
  have : leBytesToNat data / 10 * 1000 = leBytesToNat data * 100 := by omega
  rw [spec_filetime_offset_ns, this]

theorem c4_witness :
    code_filetime_offset_ns [0, 0, 0, 0, 0, 0, 0, 0] =
      some (spec_filetime_offset_ns (leBytesToNat [0, 0, 0, 0, 0, 0, 0, 0])) ∧
    code_filetime_offset_ns [0, 0, 0, 0, 0, 0, 0, 0] = some 0 :=
  ⟨c4_multiple_of_ten_ticks_exact [0, 0, 0, 0, 0, 0, 0, 0]
      (by decide) (by decide) (by decide) (by decide),
    by decide⟩

/-- Claim C5 counterexample: the claim says only the first 8 bytes of a
longer buffer matter, but `int.from_bytes` consumes the whole buffer:
the 9-byte buffer 00..00 01 agrees with the all-zero 8-byte buffer on
its first 8 bytes, yet it decodes the tick count 2^64, whose conversion
overflows the datetime range and yields Unknown, while the 8-byte
buffer decodes to the epoch. -/
theorem c5_longer_buffer_counterexample :
    List.take 8 [0, 0, 0, 0, 0, 0, 0, 0, 1] = [0, 0, 0, 0, 0, 0, 0, 0] ∧
    parse_filetime [0, 0, 0, 0, 0, 0, 0, 0] = FiletimeResult.timestamp 0 ∧
    parse_filetime [0, 0, 0, 0, 0, 0, 0, 0, 1] = FiletimeResult.unknown := by
  decide

/-- Claim C5 (amended): `_parse_filetime` reads the entire buffer as one
little-endian integer, so bytes beyond the eighth do matter in general
(see the counterexample); what does hold is that only the bytes up to
the last nonzero byte are meaningful: appending any number of zero
bytes never changes the result. -/
theorem c5_trailing_zero_bytes_irrelevant (data : List Nat) (k : Nat) :
    parse_filetime (data ++ List.replicate k 0) = parse_filetime data := by
  unfold parse_filetime parse_filetime_body
  rw [leBytesToNat_append_zeros]

/- ---------- Lemmas about the attachment materializer ---------- -/

lemma sanitizeChar_not_forbidden (c : Char) : sanitizeChar c ∉ forbiddenFilenameChars := by
  unfold sanitizeChar
  split_ifs with h
  · decide
  · exact h

lemma sanitizeFilename_eq_self (s : String)
    (h : ∀ c ∈ s.data, c ∉ forbiddenFilenameChars) : sanitizeFilename s = s := by
  cases s with
  | mk l =>
    unfold sanitizeFilename
    congr 1
    have : ∀ c ∈ l, sanitizeChar c = c := by
      intro c hc
      unfold sanitizeChar
      exact if_neg (h c hc)
    calc l.map sanitizeChar = l.map id := List.map_congr_left this
      _ = l := List.map_id l

lemma save_attachment_name_with_period (f : String) (m : Option String) (e : String)
    (hf : ¬ f = "") (hdot : '.' ∈ (sanitizeFilename f).data) :
    save_attachment_name (some f) m e = sanitizeFilename f := by
  simp only [save_attachment_name, if_neg hf, if_pos hdot]
  simp

lemma mime_to_ext_unknown (m : Option String)
    (h : ∀ v, m = some v → v ∉ knownMimeTypes) : mime_to_ext m = ".bin" := by
  cases m with
  | none => rfl
  | some v =>
    have hv := h v rfl
    show (if v = "application/pdf" then ".pdf"
      else if v = "text/plain" then ".txt"
      else if v = "image/jpeg" then ".jpg"
      else if v = "image/png" then ".png"
      else if v = "application/msword" then ".doc"
      else ".bin") = ".bin"
    split_ifs with h1 h2 h3 h4 h5
    · exact absurd (h1 ▸ (by decide : "application/pdf" ∈ knownMimeTypes)) hv
    · exact absurd (h2 ▸ (by decide : "text/plain" ∈ knownMimeTypes)) hv
    · exact absurd (h3 ▸ (by decide : "image/jpeg" ∈ knownMimeTypes)) hv
    · exact absurd (h4 ▸ (by decide : "image/png" ∈ knownMimeTypes)) hv
    · exact absurd (h5 ▸ (by decide : "application/msword" ∈ knownMimeTypes)) hv
    · rfl

lemma save_attachment_name_synthesized (m : Option String) (e : String)
    (hdot : '.' ∉ (strTakeRight e 8).data)
    (hforb : ∀ c ∈ (strTakeRight e 8).data, c ∉ forbiddenFilenameChars) :
    save_attachment_name none m e =
      "attachment_" ++ strTakeRight e 8 ++ mime_to_ext m := by
  have hlit : ∀ c ∈ ("attachment_" : String).data, c ∉ forbiddenFilenameChars := by decide
  have hdotlit : '.' ∉ ("attachment_" : String).data := by decide
  have hchars : ∀ c ∈ ("attachment_" ++ strTakeRight e 8).data, c ∉ forbiddenFilenameChars := by
    intro c hc
    rw [String.data_append] at hc
    rcases List.mem_append.mp hc with h | h
    · exact hlit c h
    · exact hforb c h
  have hbase : sanitizeFilename ("attachment_" ++ strTakeRight e 8) =
      "attachment_" ++ strTakeRight e 8 := sanitizeFilename_eq_self _ hchars
  have hnodot : '.' ∉ ("attachment_" ++ strTakeRight e 8).data := by
    rw [String.data_append]
    intro hc
    rcases List.mem_append.mp hc with h | h
    · exact hdotlit h
    · exact hdot h
  simp only [save_attachment_name, hbase, if_neg hnodot]

lemma sanitizeFilename_no_forbidden (s : String) (c : Char)
    (hc : c ∈ forbiddenFilenameChars) : c ∉ (sanitizeFilename s).data := by
  intro hmem
  have hmem' : c ∈ s.data.map sanitizeChar := hmem
  obtain ⟨a, -, hfa⟩ := List.mem_map.mp hmem'
  exact sanitizeChar_not_forbidden a (hfa ▸ hc)

lemma save_attachment_name_concrete (m : Option String) (e : String) :
    save_attachment_name (some "bad:name.pdf") m e = "bad.name.pdf" := by
  have h := save_attachment_name_with_period "bad:name.pdf" m e (by decide) (by decide)
  rw [h]
  decide

/-- Claim C8: in `_save_attachment`, every occurrence of each of the
characters < > : " / \ | ? * in the base filename is replaced by a
period (so none of them survives sanitization), if the sanitized base
filename already contains a period no extension is appended, and in
particular the declared filename "bad:name.pdf" yields the output
filename "bad.name.pdf". -/
theorem c8_sanitize_and_extension :
    (∀ (s : String) (c : Char), c ∈ forbiddenFilenameChars → c ∉ (sanitizeFilename s).data)
    ∧ (∀ (f : String) (m : Option String) (e : String), ¬ f = "" →
        '.' ∈ (sanitizeFilename f).data →
        save_attachment_name (some f) m e = sanitizeFilename f)
    ∧ (∀ (m : Option String) (e : String),
        save_attachment_name (some "bad:name.pdf") m e = "bad.name.pdf") :=
  ⟨sanitizeFilename_no_forbidden, save_attachment_name_with_period,
    save_attachment_name_concrete⟩

theorem c8_witness :
    ('<' ∉ (sanitizeFilename "a<b").data)
    ∧ save_attachment_name (some "x.y") none "entry" = sanitizeFilename "x.y"
    ∧ save_attachment_name (some "bad:name.pdf") none "entry" = "bad.name.pdf" :=
  ⟨c8_sanitize_and_extension.1 "a<b" '<' (by decide),
    c8_sanitize_and_extension.2.1 "x.y" none "entry" (by decide) (by decide),
    c8_sanitize_and_extension.2.2 none "entry"⟩

/-- Claim C9 counterexample: the claim says a missing declared filename
with MIME type image/png always yields "attachment_" plus the last 8
characters of the group entry name plus ".png"; but for the group
entry name "__attach_version1.0_" the last 8 characters are
"sion1.0_", which contain a period, so the code appends no extension
and the result lacks the ".png" the claim demands. -/
theorem c9_png_name_counterexample :
    save_attachment_name none (some "image/png") "__attach_version1.0_" =
      "attachment_sion1.0_" ∧
    "attachment_sion1.0_" ≠
      "attachment_" ++ strTakeRight "__attach_version1.0_" 8 ++ ".png" := by
  decide

/-- Claim C9 (amended): when an attachment has no declared filename,
and the last 8 characters of the attachment-group entry name contain
no period and none of the sanitized characters, the materialized
filename is the literal "attachment_" followed by those 8 characters
followed by ".png" for declared MIME type image/png, while a MIME type
that is absent or not in the fixed table yields the generic ".bin"
extension.  (Without the proviso the extension can be silently dropped
or the name rewritten, as the counterexample shows.) -/
theorem c9_synthesized_name (e : String)
    (hdot : '.' ∉ (strTakeRight e 8).data)
    (hforb : ∀ c ∈ (strTakeRight e 8).data, c ∉ forbiddenFilenameChars) :
    (save_attachment_name none (some "image/png") e =
      "attachment_" ++ strTakeRight e 8 ++ ".png")
    ∧ (∀ m : Option String, (∀ v, m = some v → v ∉ knownMimeTypes) →
        save_attachment_name none m e = "attachment_" ++ strTakeRight e 8 ++ ".bin") := by
  constructor
  · rw [save_attachment_name_synthesized (some "image/png") e hdot hforb]
    rfl
  · intro m hm
    rw [save_attachment_name_synthesized m e hdot hforb, mime_to_ext_unknown m hm]

/- ---------- Preservation lemmas about the traversal ---------- -/

lemma extract_attachment_email_data (s : ProcState) (e : Entry) :
    (extract_attachment s e).email_data = s.email_data := by
  cases e <;> simp only [extract_attachment] <;> (repeat' split) <;> rfl

lemma recip_step_SentOn (acc : ProcState) (c : Entry) :
    (recip_step acc c).email_data.SentOn = acc.email_data.SentOn := by
  cases c <;> simp only [recip_step] <;> (repeat' split) <;> rfl

lemma recip_step_get (tf : TextField) (acc : ProcState) (c : Entry) :
    tf.get (recip_step acc c).email_data = tf.get acc.email_data := by
  cases c <;> cases tf <;> simp only [recip_step, TextField.get] <;> (repeat' split) <;> rfl

lemma recip_fold_SentOn (children : List Entry) : ∀ acc : ProcState,
    ((children.foldl recip_step acc).email_data.SentOn = acc.email_data.SentOn) := by
  induction children with
  | nil => intro acc; rfl
  | cons c cs ih => intro acc; rw [List.foldl_cons, ih, recip_step_SentOn]

lemma recip_fold_get (tf : TextField) (children : List Entry) : ∀ acc : ProcState,
    tf.get (children.foldl recip_step acc).email_data = tf.get acc.email_data := by
  induction children with
  | nil => intro acc; rfl
  | cons c cs ih => intro acc; rw [List.foldl_cons, ih, recip_step_get]

lemma extract_recipients_SentOn (s : ProcState) (e : Entry) :
    (extract_recipients s e).email_data.SentOn = s.email_data.SentOn := by
  cases e with
  | stream n d => rfl
  | dir name children =>
    simp only [extract_recipients]
    split
    · exact recip_fold_SentOn children s
    · rfl

lemma extract_recipients_get (tf : TextField) (s : ProcState) (e : Entry) :
    tf.get (extract_recipients s e).email_data = tf.get s.email_data := by
  cases e with
  | stream n d => rfl
  | dir name children =>
    simp only [extract_recipients]
    split
    · exact recip_fold_get tf children s
    · rfl

lemma extract_metadata_SentOn_some (s : ProcState) (e : Entry)
    (h : s.email_data.SentOn ≠ none) :
    (extract_metadata s e).email_data.SentOn = s.email_data.SentOn := by
  cases e with
  | dir name children => rfl
  | stream n d =>
    simp only [extract_metadata]
    split_ifs with h1 h2 h3 h4 h5 h6
    · rfl
    · rfl
    · rfl
    · rfl
    · exact absurd (Option.isNone_iff_eq_none.mp h6) h
    · rfl
    · rfl

lemma extract_metadata_SentOn_not_sent (s : ProcState) (e : Entry)
    (he : isSentOnStream e = false) :
    (extract_metadata s e).email_data.SentOn = s.email_data.SentOn := by
  cases e with
  | dir name children => rfl
  | stream n d =>
    have hn : ¬(n = sentOnId1 ∨ n = sentOnId2) := by
      simpa [isSentOnStream] using he
    simp only [extract_metadata]
    split_ifs <;> rfl

lemma extract_metadata_SentOn_set (s : ProcState) (n : String) (d : List Nat)
    (hn : n = sentOnId1 ∨ n = sentOnId2) (hnone : s.email_data.SentOn = none) :
    (extract_metadata s (Entry.stream n d)).email_data.SentOn = some (parse_filetime d) := by
  have h1 : ¬ n = fromId := by rcases hn with rfl | rfl <;> decide
  have h2 : ¬ n = subjectId := by rcases hn with rfl | rfl <;> decide
  have h3 : ¬ n = bodyId := by rcases hn with rfl | rfl <;> decide
  have h4 : ¬ n = ccId := by rcases hn with rfl | rfl <;> decide
  simp only [extract_metadata, if_neg h1, if_neg h2, if_neg h3, if_neg h4, if_pos hn, hnone]
  rfl

lemma extract_metadata_get_not_field (tf : TextField) (s : ProcState) (e : Entry)
    (he : isFieldStream tf e = false) :
    tf.get (extract_metadata s e).email_data = tf.get s.email_data := by
  cases e with
  | dir name children => rfl
  | stream n d =>
    have hn : ¬ n = tf.streamName := by
      simpa [isFieldStream] using he
    cases tf <;>
      simp only [TextField.streamName] at hn <;>
      simp only [extract_metadata, TextField.get] <;>
      split_ifs <;> rfl

lemma extract_metadata_get_set (tf : TextField) (s : ProcState) (d : List Nat) :
    tf.get (extract_metadata s (Entry.stream tf.streamName d)).email_data =
      some (decodeUtf16 d) := by
  cases tf <;> rfl

lemma process_entry_stream (s : ProcState) (n : String) (d : List Nat) :
    process_entry s (Entry.stream n d) = extract_metadata s (Entry.stream n d) := rfl

lemma process_entry_SentOn_preserved (s : ProcState) (e : Entry)
    (h : s.email_data.SentOn ≠ none) :
    (process_entry s e).email_data.SentOn = s.email_data.SentOn := by
  cases e with
  | stream n d => rw [process_entry_stream]; exact extract_metadata_SentOn_some s _ h
  | dir name children =>
    show (extract_attachment (extract_recipients s (Entry.dir name children))
        (Entry.dir name children)).email_data.SentOn = _
    rw [extract_attachment_email_data, extract_recipients_SentOn]

lemma process_entry_SentOn_none (s : ProcState) (e : Entry)
    (hnone : s.email_data.SentOn = none) (he : isSentOnStream e = false) :
    (process_entry s e).email_data.SentOn = none := by
  cases e with
  | stream n d =>
    rw [process_entry_stream, extract_metadata_SentOn_not_sent s _ he, hnone]
  | dir name children =>
    show (extract_attachment (extract_recipients s (Entry.dir name children))
        (Entry.dir name children)).email_data.SentOn = _
    rw [extract_attachment_email_data, extract_recipients_SentOn, hnone]

lemma process_entry_SentOn_set (s : ProcState) (n : String) (d : List Nat)
    (hn : n = sentOnId1 ∨ n = sentOnId2) (hnone : s.email_data.SentOn = none) :
    (process_entry s (Entry.stream n d)).email_data.SentOn = some (parse_filetime d) := by
  rw [process_entry_stream]
  exact extract_metadata_SentOn_set s n d hn hnone

lemma process_entry_get_not_field (tf : TextField) (s : ProcState) (e : Entry)
    (he : isFieldStream tf e = false) :
    tf.get (process_entry s e).email_data = tf.get s.email_data := by
  cases e with
  | stream n d =>
    rw [process_entry_stream]
    exact extract_metadata_get_not_field tf s _ he
  | dir name children =>
    show tf.get (extract_attachment (extract_recipients s (Entry.dir name children))
        (Entry.dir name children)).email_data = _
    rw [extract_attachment_email_data, extract_recipients_get]

lemma process_entry_get_set (tf : TextField) (s : ProcState) (d : List Nat) :
    tf.get (process_entry s (Entry.stream tf.streamName d)).email_data =
      some (decodeUtf16 d) := by
  rw [process_entry_stream]
  exact extract_metadata_get_set tf s d

lemma run_SentOn_preserved (es : List Entry) : ∀ s : ProcState,
    s.email_data.SentOn ≠ none →
    (process_msg_entries s es).email_data.SentOn = s.email_data.SentOn := by
  induction es with
  | nil => intro s _; rfl
  | cons e es ih =>
    intro s h
    show (process_msg_entries (process_entry s e) es).email_data.SentOn = _
    have hpe := process_entry_SentOn_preserved s e h
    rw [ih (process_entry s e) (by rw [hpe]; exact h), hpe]

lemma run_SentOn_none (es : List Entry) : ∀ s : ProcState,
    s.email_data.SentOn = none → (∀ e ∈ es, isSentOnStream e = false) →
    (process_msg_entries s es).email_data.SentOn = none := by
  induction es with
  | nil => intro s h _; exact h
  | cons e es ih =>
    intro s h hall
    show (process_msg_entries (process_entry s e) es).email_data.SentOn = none
    exact ih (process_entry s e)
      (process_entry_SentOn_none s e h (hall e (by simp)))
      (fun x hx => hall x (by simp [hx]))

lemma run_get_preserved (tf : TextField) (es : List Entry) : ∀ s : ProcState,
    (∀ e ∈ es, isFieldStream tf e = false) →
    tf.get (process_msg_entries s es).email_data = tf.get s.email_data := by
  induction es with
  | nil => intro s _; rfl
  | cons e es ih =>
    intro s hall
    show tf.get (process_msg_entries (process_entry s e) es).email_data = _
    rw [ih (process_entry s e) (fun x hx => hall x (by simp [hx])),
      process_entry_get_not_field tf s e (hall e (by simp))]

theorem c9_witness :
    (save_attachment_name none (some "image/png") "__attach_version1.0_#00000000" =
      "attachment_" ++ strTakeRight "__attach_version1.0_#00000000" 8 ++ ".png")
    ∧ (save_attachment_name none none "__attach_version1.0_#00000000" =
      "attachment_" ++ strTakeRight "__attach_version1.0_#00000000" 8 ++ ".bin") :=
  ⟨(c9_synthesized_name "__attach_version1.0_#00000000" (by decide) (by decide)).1,
    (c9_synthesized_name "__attach_version1.0_#00000000" (by decide) (by decide)).2
      none (fun v h => Option.noConfusion h)⟩

/-- Claim C1: during one .msg traversal the Sent On field is first-wins
— the first stream carrying either alternate sent-timestamp identifier
determines the stored value and no later occurrence of either
identifier overwrites it — while each of the four other scalar fields
(From, Subject, Body, CC) is last-write-wins: the final value is the
decoded content of the last stream carrying that field's identifier. -/
theorem c1_sent_on_first_wins_text_fields_last_win :
    (∀ (l1 l2 : List Entry) (n : String) (d : List Nat),
      (n = sentOnId1 ∨ n = sentOnId2) →
      (∀ e ∈ l1, isSentOnStream e = false) →
      (process_msg_entries initState
          (l1 ++ Entry.stream n d :: l2)).email_data.SentOn =
        some (parse_filetime d))
    ∧ (∀ (tf : TextField) (s : ProcState) (l1 l2 : List Entry) (d : List Nat),
      (∀ e ∈ l2, isFieldStream tf e = false) →
      tf.get (process_msg_entries s
          (l1 ++ Entry.stream tf.streamName d :: l2)).email_data =
        some (decodeUtf16 d)) := by
  constructor
  · intro l1 l2 n d hn hl1
    have h0 : (process_msg_entries initState l1).email_data.SentOn = none :=
      run_SentOn_none l1 initState rfl hl1
    have h1 : (process_entry (process_msg_entries initState l1)
        (Entry.stream n d)).email_data.SentOn = some (parse_filetime d) :=
      process_entry_SentOn_set _ n d hn h0
    have hsplit : process_msg_entries initState (l1 ++ Entry.stream n d :: l2)
        = process_msg_entries
            (process_entry (process_msg_entries initState l1) (Entry.stream n d)) l2 := by
      simp only [process_msg_entries, List.foldl_append, List.foldl_cons]
    rw [hsplit,
      run_SentOn_preserved l2 _ (by rw [h1]; exact fun hc => Option.noConfusion hc), h1]
  · intro tf s l1 l2 d hl2
    have hsplit : process_msg_entries s (l1 ++ Entry.stream tf.streamName d :: l2)
        = process_msg_entries
            (process_entry (process_msg_entries s l1) (Entry.stream tf.streamName d)) l2 := by
      simp only [process_msg_entries, List.foldl_append, List.foldl_cons]
    rw [hsplit, run_get_preserved tf l2 _ hl2, process_entry_get_set]

theorem c1_witness :
    ((process_msg_entries initState
        [Entry.stream sentOnId1 [0, 0, 0, 0, 0, 0, 0, 0],
         Entry.stream sentOnId2 [1, 0, 0, 0, 0, 0, 0, 0]]).email_data.SentOn =
      some (FiletimeResult.timestamp 0))
    ∧ ((process_msg_entries initState
        [Entry.stream subjectId [65, 0], Entry.stream subjectId [66, 0]]).email_data.Subject =
      some "B") := by
  constructor
  · have h := c1_sent_on_first_wins_text_fields_last_win.1
      [] [Entry.stream sentOnId2 [1, 0, 0, 0, 0, 0, 0, 0]]
      sentOnId1 [0, 0, 0, 0, 0, 0, 0, 0] (Or.inl rfl) (by simp)
    exact h.trans (by decide)
  · have h := c1_sent_on_first_wins_text_fields_last_win.2
      TextField.Subject initState [Entry.stream subjectId [65, 0]] [] [66, 0] (by simp)
    exact h.trans (by decide)

/-- Claim C2 counterexample: the claim says the attachment filename is
first-wins across the two interchangeable identifiers, but the scan
loop assigns the filename slot unconditionally: with a stream named by
the first identifier decoding to "A" followed by one named by the
second identifier decoding to "B", the recorded filename is "B" — the
second occurrence did overwrite the first. -/
theorem c2_filename_overwrite_counterexample :
    (([Entry.stream attachFilenameId1 [65, 0],
       Entry.stream attachFilenameId2 [66, 0]]).foldl attach_scan_step
        initAttachment).filename = some "B"
    ∧ decodeUtf16 [65, 0] = "A"
    ∧ some ("B" : String) ≠ some ("A" : String) := by
  decide

lemma attach_scan_step_filename_set (a : AttachmentData) (n : String) (d : List Nat)
    (hn : n = attachFilenameId1 ∨ n = attachFilenameId2) :
    (attach_scan_step a (Entry.stream n d)).filename = some (decodeUtf16 d) := by
  have h0 : ¬ n = attachDataId := by rcases hn with rfl | rfl <;> decide
  simp only [attach_scan_step, if_neg h0, if_pos hn]

lemma attach_scan_step_filename_preserved (a : AttachmentData) (c : Entry)
    (hc : isAttachFilenameStream c = false) :
    (attach_scan_step a c).filename = a.filename := by
  cases c with
  | dir name children => rfl
  | stream n d =>
    have hn : ¬(n = attachFilenameId1 ∨ n = attachFilenameId2) := by
      simpa [isAttachFilenameStream] using hc
    simp only [attach_scan_step]
    split_ifs <;> rfl

lemma attach_scan_fold_filename_preserved (cs : List Entry) : ∀ a : AttachmentData,
    (∀ e ∈ cs, isAttachFilenameStream e = false) →
    (cs.foldl attach_scan_step a).filename = a.filename := by
  induction cs with
  | nil => intro a _; rfl
  | cons c cs ih =>
    intro a hall
    rw [List.foldl_cons, ih (attach_scan_step a c) (fun x hx => hall x (by simp [hx])),
      attach_scan_step_filename_preserved a c (hall c (by simp))]

/-- Claim C2 (amended): the attachment filename is last-write-wins
across the two interchangeable identifiers: after scanning the
attachment group's direct children, the recorded filename is the
decoded content of the last stream named by either identifier, so a
second occurrence does overwrite the value set by the first. -/
theorem c2_filename_last_write_wins (a : AttachmentData) (l1 l2 : List Entry)
    (n : String) (d : List Nat)
    (hn : n = attachFilenameId1 ∨ n = attachFilenameId2)
    (hl2 : ∀ e ∈ l2, isAttachFilenameStream e = false) :
    ((l1 ++ Entry.stream n d :: l2).foldl attach_scan_step a).filename =
      some (decodeUtf16 d) := by
  rw [List.foldl_append, List.foldl_cons,
    attach_scan_fold_filename_preserved l2 _ hl2,
    attach_scan_step_filename_set _ n d hn]

theorem c2_witness :
    (([Entry.stream attachFilenameId2 [66, 0]]).foldl attach_scan_step
        initAttachment).filename = some (decodeUtf16 [66, 0]) :=
  c2_filename_last_write_wins initAttachment [] [] attachFilenameId2 [66, 0]
    (Or.inr rfl) (by simp)

lemma attach_scan_step_data_empty (a : AttachmentData) (c : Entry)
    (ha : a.data = none ∨ a.data = some [])
    (hc : ∀ d, c = Entry.stream attachDataId d → d = []) :
    (attach_scan_step a c).data = none ∨ (attach_scan_step a c).data = some [] := by
  cases c with
  | dir name children => exact ha
  | stream n d =>
    by_cases hn : n = attachDataId
    · subst hn
      have hd : d = [] := hc d rfl
      subst hd
      right
      simp [attach_scan_step]
    · have : (attach_scan_step a (Entry.stream n d)).data = a.data := by
        simp only [attach_scan_step, if_neg hn]
        split_ifs <;> rfl
      rw [this]
      exact ha

lemma attach_scan_fold_data_empty (cs : List Entry) : ∀ a : AttachmentData,
    (a.data = none ∨ a.data = some []) →
    (∀ e ∈ cs, ∀ d, e = Entry.stream attachDataId d → d = []) →
    ((cs.foldl attach_scan_step a).data = none ∨
      (cs.foldl attach_scan_step a).data = some []) := by
  induction cs with
  | nil => intro a ha _; exact ha
  | cons c cs ih =>
    intro a ha hall
    rw [List.foldl_cons]
    exact ih (attach_scan_step a c)
      (attach_scan_step_data_empty a c ha (fun d hd => hall c (by simp) d hd))
      (fun e he d hd => hall e (by simp [he]) d hd)

/-- Claim C7: an attachment-group directory whose children hold no
non-empty payload stream — whatever filename or MIME-type streams they
do hold — leaves the processing state exactly as it was: no file is
written and no entry is appended to the attachment list (the group is
silently dropped through the ordinary falsy-payload branch, not an
error path). -/
theorem c7_no_payload_no_output (s : ProcState) (name : String) (children : List Entry)
    (hpre : strStartsWith name attachDirPrefixStr = true)
    (hnopayload : ∀ e ∈ children, ∀ d, e = Entry.stream attachDataId d → d = []) :
    extract_attachment s (Entry.dir name children) = s := by
  rcases attach_scan_fold_data_empty children initAttachment (Or.inl rfl) hnopayload
    with h | h
  · simp [extract_attachment, hpre, h]
  · simp [extract_attachment, hpre, h]

theorem c7_witness :
    extract_attachment initState
      (Entry.dir "__attach_version1.0_#00000000"
        [Entry.stream attachFilenameId1 [65, 0],
         Entry.stream attachMimeId [105, 0]]) = initState :=
  c7_no_payload_no_output initState "__attach_version1.0_#00000000"
    [Entry.stream attachFilenameId1 [65, 0], Entry.stream attachMimeId [105, 0]]
    (by decide)
    (by
      intro e he d hd
      simp only [List.mem_cons, List.not_mem_nil, or_false] at he
      rcases he with rfl | rfl
      · injection hd with h1 h2
        exact absurd h1 (by decide)
      · injection hd with h1 h2
        exact absurd h1 (by decide))

/-- Claim C6: when the path has the .msg extension (case-insensitively)
and opening the compound container fails, `process` does not propagate
the failure: it returns the structurally valid all-empty record (From,
Sent On, CC, Subject, Body absent; To empty) together with an empty
attachment list, and writes no file. -/
theorem c6_open_failure_empty_record (emlSem : MsgInput → ProcState)
    (inp : MsgInput) (err : String)
    (hmsg : strEndsWith (strToLower inp.file_path) ".msg" = true)
    (hfail : inp.container = Except.error err) :
    process emlSem inp =
      { email_data :=
          { From := none, To := [], SentOn := none,
            CC := none, Subject := none, Body := none },
        attachments := [], files := [] } := by
  simp [process, process_msg, hmsg, hfail, initState, initEmailData]

theorem c6_witness :
    process (fun _ => initState)
      { file_path := "Mail.MSG", container := Except.error "corrupt header" } =
      { email_data :=
          { From := none, To := [], SentOn := none,
            CC := none, Subject := none, Body := none },
        attachments := [], files := [] } :=
  c6_open_failure_empty_record (fun _ => initState)
    { file_path := "Mail.MSG", container := Except.error "corrupt header" }
    "corrupt header" (by decide) rfl

/-- Claim C10: for a path whose lowercased name ends in neither .msg
nor .eml, `process` performs no extraction at all — whatever the
container would have held — and returns exactly the freshly
initialized record (From, Sent On, CC, Subject, Body absent; To empty)
with an empty attachment list and no file written. -/
theorem c10_other_extension_no_extraction (emlSem : MsgInput → ProcState)
    (inp : MsgInput)
    (h1 : strEndsWith (strToLower inp.file_path) ".msg" = false)
    (h2 : strEndsWith (strToLower inp.file_path) ".eml" = false) :
    process emlSem inp =
      { email_data :=
          { From := none, To := [], SentOn := none,
            CC := none, Subject := none, Body := none },
        attachments := [], files := [] } := by
  simp [process, h1, h2, initState, initEmailData]

theorem c10_witness :
    process (fun _ => initState)
      { file_path := "report.pdf",
        container := Except.ok [Entry.stream fromId [65, 0]] } =
      { email_data :=
          { From := none, To := [], SentOn := none,
            CC := none, Subject := none, Body := none },
        attachments := [], files := [] } :=
  c10_other_extension_no_extraction (fun _ => initState)
    { file_path := "report.pdf",
      container := Except.ok [Entry.stream fromId [65, 0]] }
    (by decide) (by decide)
